import Mathlib

/-!
Verification of the Cashbook-pro money-exchanger ledger.

The definitions below are a shallow embedding of the ledger logic in
`src/app.js` (client-side handlers `addNewPersonTransaction`,
`handleOldPersonTransaction`, `handleGeneralEntry`,
`deleteMoneyExchangerTransaction`) and of the server endpoint
`POST /api/money-exchanger/transactions` in `src/server.js`.

JavaScript numbers are modelled as rationals; the `customers` object is
modelled as an association list (JS object key order is insertion order,
`customers[k] = v` overwrites the existing entry or appends a new one,
lookups read the entry if present).  The DOM inputs of each handler are
gathered into a request structure; UI-level early returns become rejection
values carrying the state the in-memory ledger is left in (which matters,
because one rejection happens after the transaction was already pushed).
-/

namespace Cashbook

/-- One recorded transaction (`transaction` objects in app.js / server.js).
Client-side old-person and general entries have no `id` (the field is
absent, i.e. `none`); server-inserted transactions get `id = generateId`. -/
structure Tx where
  id : Option String
  txType : String
  date : String
  payer : String
  receiver : String
  amount : ℚ
  description : String
  cashType : String
deriving DecidableEq

/-- The `customers` object: name → balance, in insertion order. -/
abbrev Customers := List (String × ℚ)

/-- `customers[name]` — `some v` if present, `none` for `undefined`. -/
def lookupBal : Customers → String → Option ℚ
  | [], _ => none
  | (k, v) :: rest, name => if k = name then some v else lookupBal rest name

/-- `customers[name] = v` — overwrite the existing entry, else append. -/
def setBal : Customers → String → ℚ → Customers
  | [], name, v => [(name, v)]
  | (k, w) :: rest, name, v =>
      if k = name then (k, v) :: rest else (k, w) :: setBal rest name v

/-- `customers[name] += d`.  Every call site in the source is guarded by an
existence check, so the `none` case (which in JS would produce `NaN`) is
unreachable; it is given the JS-assignment fallback. -/
def addBal (m : Customers) (name : String) (d : ℚ) : Customers :=
  match lookupBal m name with
  | some v => setBal m name (v + d)
  | none => setBal m name d

/-- The client-side `moneyExchangerData` record. -/
structure LedgerState where
  ownerBalance : ℚ
  customers : Customers
  transactions : List Tx
deriving DecidableEq

/-- The spec's rejection taxonomy, mapped from the error-message early
returns of app.js. -/
inductive Rejection where
  | InvalidParties
  | InvalidAmount
  | MissingField
  | CustomerAlreadyExists
  | UnknownCustomer
  | OutstandingDebt
  | NoDebtToRepay
  | AmountExceedsDebt
  | AmountMismatch
  | InvertedDebtDirection
  | RecipientInDebt
  | MissingDirection
deriving DecidableEq

/-- Result of a handler: acceptance with the new state, or a rejection
together with the state the in-memory ledger is left in (normally the
old state, but see `opApply`'s InvertedDebtDirection path). -/
inductive OpResult where
  | ok (st : LedgerState)
  | err (e : Rejection) (st : LedgerState)
deriving DecidableEq

def OpResult.state : OpResult → LedgerState
  | .ok st => st
  | .err _ st => st

def OpResult.isOk : OpResult → Bool
  | .ok _ => true
  | .err _ _ => false

/-- The `payerType` / `receiverType` strings of app.js. -/
inductive PartyType where
  | owner
  | customer
deriving DecidableEq

/-- Resolved form inputs of the new-person / old-person tabs. -/
structure TransferReq where
  payerType : PartyType
  payerName : String
  receiverType : PartyType
  receiverName : String
  amount : ℚ
  description : String
  cashType : String
deriving DecidableEq

/-- The balance the code reads for a party: `ownerBalance` for the owner,
`customers[name]` for a customer (0 stands for an absent key; handlers
only read it under an existence guard). -/
def LedgerState.balOf (st : LedgerState) (pt : PartyType) (name : String) : ℚ :=
  match pt with
  | .owner => st.ownerBalance
  | .customer => (lookupBal st.customers name).getD 0

/-- JS test `customers[name] < 0` (false when the key is `undefined`). -/
def negOpt : Option ℚ → Bool
  | some v => decide (v < 0)
  | none => false

/-! ### New-person transfers (app.js `addNewPersonTransaction`) -/

/-- The early-return validation sequence of `addNewPersonTransaction`,
in source order. -/
def npValidate (req : TransferReq) (st : LedgerState) : Option Rejection :=
  if req.payerName = req.receiverName then some .InvalidParties
  else if req.amount ≤ 0 then some .InvalidAmount
  else if req.cashType = "" then some .MissingField
  else if req.payerType = PartyType.customer ∧
      ¬ lookupBal st.customers req.payerName = none then some .CustomerAlreadyExists
  else if req.receiverType = PartyType.customer ∧
      ¬ lookupBal st.customers req.receiverName = none then some .CustomerAlreadyExists
  else if req.payerType = PartyType.owner ∧ st.ownerBalance < 0 then some .OutstandingDebt
  else if req.payerType = PartyType.customer ∧
      negOpt (lookupBal st.customers req.payerName) = true then some .OutstandingDebt
  else none

/-- The balance updates of `addNewPersonTransaction` after the server call
succeeded: the server-returned transaction (with id and date) is pushed,
then balances are assigned per payer/receiver type. -/
def npApply (req : TransferReq) (newId date : String) (st : LedgerState) : LedgerState :=
  let tx : Tx := ⟨some newId, "New Person", date, req.payerName, req.receiverName,
    req.amount, req.description, req.cashType⟩
  let st1 := { st with transactions := st.transactions ++ [tx] }
  match req.payerType, req.receiverType with
  | .owner, .customer =>
      { st1 with ownerBalance := st1.ownerBalance - req.amount,
                 customers := setBal st1.customers req.receiverName req.amount }
  | .owner, .owner =>
      { st1 with ownerBalance := st1.ownerBalance - req.amount }
  | .customer, .owner =>
      { st1 with ownerBalance := st1.ownerBalance + req.amount,
                 customers := setBal st1.customers req.payerName (-req.amount) }
  | .customer, .customer =>
      let cs := setBal (setBal st1.customers req.payerName (-req.amount))
        req.receiverName req.amount
      { st1 with customers := cs }

def addNewPersonTransaction (req : TransferReq) (newId date : String)
    (st : LedgerState) : OpResult :=
  match npValidate req st with
  | some e => .err e st
  | none => .ok (npApply req newId date st)

/-! ### Old-person transactions (app.js `handleOldPersonTransaction`) -/

/-- The `type` argument of `handleOldPersonTransaction`. -/
inductive OPType where
  | PR
  | Full
  | Debt
deriving DecidableEq

def opTypeName : OPType → String
  | .PR => "Old Person (PR)"
  | .Full => "Old Person (Full)"
  | .Debt => "Old Person (Debt)"

/-- The generic checks of `handleOldPersonTransaction` (same parties,
amount, cash type, both parties must already exist), in source order. -/
def opValidateCommon (req : TransferReq) (st : LedgerState) : Option Rejection :=
  if req.payerName = req.receiverName then some .InvalidParties
  else if req.amount ≤ 0 then some .InvalidAmount
  else if req.cashType = "" then some .MissingField
  else if req.payerType = PartyType.customer ∧
      lookupBal st.customers req.payerName = none then some .UnknownCustomer
  else if req.receiverType = PartyType.customer ∧
      lookupBal st.customers req.receiverName = none then some .UnknownCustomer
  else none

/-- The per-subtype validation blocks of `handleOldPersonTransaction`.
The PR/Full blocks treat customer and owner payer identically up to which
balance is read, so they are phrased over that balance. -/
def opValidateType (ty : OPType) (payerBal amount : ℚ) : Option Rejection :=
  match ty with
  | .PR =>
      if 0 ≤ payerBal then some .NoDebtToRepay
      else if |payerBal| ≤ amount then some .AmountExceedsDebt
      else none
  | .Full =>
      if 0 ≤ payerBal then some .NoDebtToRepay
      else if ¬ amount = |payerBal| then some .AmountMismatch
      else none
  | .Debt =>
      if payerBal < 0 then some .OutstandingDebt
      else none

/-- The full pre-push validation sequence of `handleOldPersonTransaction`,
in source order. -/
def opValidate (ty : OPType) (req : TransferReq) (st : LedgerState) : Option Rejection :=
  match opValidateCommon req st with
  | some e => some e
  | none => opValidateType ty (st.balOf req.payerType req.payerName) req.amount

/-- The push-and-update section of `handleOldPersonTransaction`.  The
transaction is pushed BEFORE the remaining Debt checks.  When the payer is
the owner the subtype is ignored (the first branch of the JS if/else-if).
When the payer is a customer and the subtype is Debt, a positive balance is
rejected (InvertedDebtDirection) with the transaction already in the log;
the JS branch for an owner payer inside this customer case (the
RecipientInDebt check) is unreachable and therefore has no counterpart. -/
def opApply (ty : OPType) (req : TransferReq) (date : String)
    (st : LedgerState) : OpResult :=
  let tx : Tx := ⟨none, opTypeName ty, date, req.payerName, req.receiverName,
    req.amount, req.description, req.cashType⟩
  let st1 := { st with transactions := st.transactions ++ [tx] }
  match req.payerType with
  | .owner =>
      let st2 := { st1 with ownerBalance := st1.ownerBalance - req.amount }
      if req.receiverType = PartyType.customer then
        .ok { st2 with customers := addBal st2.customers req.receiverName req.amount }
      else .ok st2
  | .customer =>
      let cb := (lookupBal st1.customers req.payerName).getD 0
      match ty with
      | .PR =>
          let st2 := { st1 with customers := setBal st1.customers req.payerName (cb - req.amount) }
          if req.receiverType = PartyType.owner then
            .ok { st2 with ownerBalance := st2.ownerBalance + req.amount }
          else .ok st2
      | .Full =>
          let st2 := { st1 with customers := setBal st1.customers req.payerName 0 }
          if req.receiverType = PartyType.owner then
            .ok { st2 with ownerBalance := st2.ownerBalance + req.amount }
          else .ok st2
      | .Debt =>
          if 0 < cb then .err .InvertedDebtDirection st1
          else
            let st2 := { st1 with customers := setBal st1.customers req.payerName (cb - req.amount) }
            if req.receiverType = PartyType.owner then
              .ok { st2 with ownerBalance := st2.ownerBalance + req.amount }
            else .ok st2

def handleOldPersonTransaction (ty : OPType) (req : TransferReq) (date : String)
    (st : LedgerState) : OpResult :=
  match opValidate ty req st with
  | some e => .err e st
  | none => opApply ty req date st

/-! ### General entries (app.js `handleGeneralEntry`) -/

inductive GEType where
  | IN
  | OUT
  | Adjustment
deriving DecidableEq

/-- The `adjustment-direction` radio value. -/
inductive AdjDir where
  | plus
  | minus
deriving DecidableEq

/-- Resolved inputs of the general-entry form.  `adjPerson = none` models
neither adjustment checkbox being checked; `adjDirection = none` models no
direction radio selected. -/
structure GEReq where
  amount : ℚ
  description : String
  adjPerson : Option (PartyType × String)
  adjDirection : Option AdjDir
deriving DecidableEq

def geTypeName : GEType → String
  | .IN => "General Entry (IN)"
  | .OUT => "General Entry (OUT)"
  | .Adjustment => "General Entry (Adjustment)"

/-- The adjustment-specific checks of `handleGeneralEntry`, in source
order: a party must be selected, its name non-empty, a named customer must
exist, and a direction must be chosen. -/
def geValidateAdj (req : GEReq) (st : LedgerState) : Option Rejection :=
  match req.adjPerson with
  | none => some .MissingField
  | some (pt, name) =>
      if name = "" then some .MissingField
      else if pt = PartyType.customer ∧ lookupBal st.customers name = none then
        some .UnknownCustomer
      else
        match req.adjDirection with
        | none => some .MissingDirection
        | some _ => none

/-- The early-return validation sequence of `handleGeneralEntry`. -/
def geValidate (ty : GEType) (req : GEReq) (st : LedgerState) : Option Rejection :=
  if req.amount ≤ 0 then some .InvalidAmount
  else if req.description = "" then some .MissingField
  else
    match ty with
    | .Adjustment => geValidateAdj req st
    | _ => none

/-- The payer/receiver strings recorded on an adjustment transaction
(`currentOwner` is `this.currentUser.fullName`). -/
def adjParties (pt : PartyType) (name currentOwner : String) (dir : AdjDir) :
    String × String :=
  match pt, dir with
  | .owner, .plus => ("System", name)
  | .owner, .minus => (name, "System")
  | .customer, .plus => (currentOwner, name)
  | .customer, .minus => (name, currentOwner)

/-- The push-and-update section of `handleGeneralEntry`; only called after
`geValidate` passed, so for an Adjustment both `adjPerson` and
`adjDirection` are present (the fallback keeps the state unchanged and is
unreachable). -/
def geApply (ty : GEType) (req : GEReq) (currentOwner date : String)
    (st : LedgerState) : LedgerState :=
  match ty with
  | .IN =>
      let tx : Tx := ⟨none, geTypeName .IN, date, "System", "System",
        req.amount, req.description, "USD"⟩
      { st with transactions := st.transactions ++ [tx],
                ownerBalance := st.ownerBalance + req.amount }
  | .OUT =>
      let tx : Tx := ⟨none, geTypeName .OUT, date, "System", "System",
        req.amount, req.description, "USD"⟩
      { st with transactions := st.transactions ++ [tx],
                ownerBalance := st.ownerBalance - req.amount }
  | .Adjustment =>
      match req.adjPerson, req.adjDirection with
      | some (pt, name), some dir =>
          let pr := adjParties pt name currentOwner dir
          let tx : Tx := ⟨none, geTypeName .Adjustment, date, pr.1, pr.2,
            req.amount, req.description, "USD"⟩
          let st1 := { st with transactions := st.transactions ++ [tx] }
          match pt, dir with
          | .owner, .plus =>
              { st1 with ownerBalance := st1.ownerBalance + req.amount }
          | .owner, .minus =>
              { st1 with ownerBalance := st1.ownerBalance - req.amount }
          | .customer, .plus =>
              { st1 with customers := addBal st1.customers name req.amount,
                         ownerBalance := st1.ownerBalance - req.amount }
          | .customer, .minus =>
              { st1 with customers := addBal st1.customers name (-req.amount),
                         ownerBalance := st1.ownerBalance + req.amount }
      | _, _ => st

def handleGeneralEntry (ty : GEType) (req : GEReq) (currentOwner date : String)
    (st : LedgerState) : OpResult :=
  match geValidate ty req st with
  | some e => .err e st
  | none => .ok (geApply ty req currentOwner date st)

/-! ### Deletion (app.js `deleteMoneyExchangerTransaction`) -/

/-- `deleteMoneyExchangerTransaction(index)`: read `transactions[index]`,
find the first entry with the same `id`, and splice it out.  An
out-of-range index throws inside the try block (or `findIndex` returns -1
on an empty list), leaving the state unchanged.  Balances are never
touched. -/
def deleteMoneyExchangerTransaction (st : LedgerState) (index : Nat) : LedgerState :=
  match st.transactions[index]? with
  | none => st
  | some tx =>
      match st.transactions.findIdx? (fun t => t.id == tx.id) with
      | none => st
      | some j => { st with transactions := st.transactions.eraseIdx j }

/-! ### Server endpoint (server.js `POST /api/money-exchanger/transactions`) -/

/-- The server-side `moneyExchangerData` record. -/
structure ServerState where
  owners : List String
  customers : Customers
  transactions : List Tx
  ownerBalance : ℚ
deriving DecidableEq

/-- The request body fields the endpoint reads.  `none` models an absent
field. -/
structure PostTxBody where
  txType : String
  payer : Option String
  receiver : Option String
  amount : Option ℚ
  description : String
  cashType : String
deriving DecidableEq

/-- JS truthiness of a string field: present and non-empty. -/
def truthyStr : Option String → Bool
  | none => false
  | some s => decide (¬ s = "")

/-- JS truthiness of a numeric field: present and non-zero. -/
def truthyNum : Option ℚ → Bool
  | none => false
  | some a => decide (¬ a = 0)

/-- The transaction the endpoint pushes: the body with the server-assigned
`id` and `date` set. -/
def mkServerTx (body : PostTxBody) (newId newDate : String) : Tx :=
  ⟨some newId, body.txType, newDate, body.payer.getD "", body.receiver.getD "",
    body.amount.getD 0, body.description, body.cashType⟩

/-- `POST /api/money-exchanger/transactions`: reject 400 when payer,
receiver or amount is falsy; otherwise assign id and date, push, and
answer 201.  No other validation, no balance update. -/
def postMoneyExchangerTransaction (body : PostTxBody) (newId newDate : String)
    (st : ServerState) : Nat × ServerState :=
  if truthyStr body.payer && truthyStr body.receiver && truthyNum body.amount then
    (201, { st with transactions := st.transactions ++ [mkServerTx body newId newDate] })
  else
    (400, st)

/-! ### Derived quantities -/

/-- Sum of all customer balances. -/
def custSum : Customers → ℚ
  | [] => 0
  | (_, v) :: rest => v + custSum rest

/-- The conserved quantity of §8: owner balance plus all customer balances. -/
def ledgerTotal (st : LedgerState) : ℚ :=
  st.ownerBalance + custSum st.customers

/-! ### Concrete fixtures used by the claim theorems and witnesses -/

/-- Ledger with owner at 0 and customer Bob owing 50 (the spec's §8
scenario base). -/
def stBob : LedgerState := ⟨0, [("Bob", -50)], []⟩

/-- Old-Person partial repayment, Bob pays the owner 20. -/
def reqPRBob : TransferReq := ⟨.customer, "Bob", .owner, "Ali", 20, "repay", "USD"⟩

/-- Old-Person full repayment, Bob pays the owner 50. -/
def reqFullBob : TransferReq := ⟨.customer, "Bob", .owner, "Ali", 50, "repay", "USD"⟩

/-- Ledger with the owner owing 50 and customer Bob at 0. -/
def stOwnerDebt50 : LedgerState := ⟨-50, [("Bob", 0)], []⟩

/-- Old-Person full repayment, the owner pays Bob 50. -/
def reqFullOwner : TransferReq := ⟨.owner, "Ali", .customer, "Bob", 50, "repay", "USD"⟩

/-- Ledger with owner at 0 and customer Bob holding +10 (the owner owes
Bob). -/
def stBobCredit : LedgerState := ⟨0, [("Bob", 10)], []⟩

/-- Old-Person debt issuance, Bob pays the owner 5. -/
def reqDebtBob : TransferReq := ⟨.customer, "Bob", .owner, "Ali", 5, "debt", "USD"⟩

/-- Old-Person debt issuance, the owner lends Bob 10. -/
def reqDebtOwner : TransferReq := ⟨.owner, "Ali", .customer, "Bob", 10, "debt", "USD"⟩

/-- New-Person transfer naming the existing (indebted) customer Bob as
payer. -/
def reqNPBob : TransferReq := ⟨.customer, "Bob", .owner, "Ali", 10, "np", "USD"⟩

/-- Ledger with the owner owing 10 and customer Bob at 0 (spec §8:
ownerBalance = -10, DebtIssuance with payer = owner). -/
def stOwnerDebt10 : LedgerState := ⟨-10, [("Bob", 0)], []⟩

/-- Old-Person debt issuance, the owner lends Bob 5. -/
def reqDebtOwner5 : TransferReq := ⟨.owner, "Ali", .customer, "Bob", 5, "debt", "USD"⟩

/-- Empty ledger, owner at 0. -/
def stEmpty : LedgerState := ⟨0, [], []⟩

/-- New-Person transfer, owner pays the brand-new customer Alice 100. -/
def reqNPAlice : TransferReq := ⟨.owner, "Ali", .customer, "Alice", 100, "np", "USD"⟩

/-- Ledger with owner at 100 and customer Carol at 0. -/
def stCarol : LedgerState := ⟨100, [("Carol", 0)], []⟩

/-- General-entry adjustment: Carol, direction +, amount 30. -/
def geReqCarol : GEReq := ⟨30, "adj", some (.customer, "Carol"), some .plus⟩

/-- Empty server-side money-exchanger store. -/
def serverSt0 : ServerState := ⟨[], [], [], 0⟩

/-- Request body with payer identical to the receiver and a negative
amount — all three fields truthy. -/
def bodyNegSelf : PostTxBody := ⟨"New Person", some "X", some "X", some (-5), "d", "USD"⟩

end Cashbook

namespace Cashbook

/-! ### Helper lemmas about the customers map -/

theorem lookupBal_setBal_self (m : Customers) (k : String) (v : ℚ) :
    lookupBal (setBal m k v) k = some v := by
  induction m with
  | nil => simp [setBal, lookupBal]
  | cons hd tl ih =>
      obtain ⟨k0, v0⟩ := hd
      by_cases h : k0 = k
      · simp [setBal, lookupBal, h]
      · simp [setBal, lookupBal, h, ih]

theorem lookupBal_setBal_ne (m : Customers) (k k2 : String) (v : ℚ)
    (h : ¬ k = k2) :
    lookupBal (setBal m k v) k2 = lookupBal m k2 := by
  induction m with
  | nil => simp [setBal, lookupBal, h]
  | cons hd tl ih =>
      obtain ⟨k0, v0⟩ := hd
      by_cases h0 : k0 = k
      · subst h0
        simp [setBal, lookupBal, h]
      · simp only [setBal, if_neg h0, lookupBal]
        by_cases h2 : k0 = k2
        · simp [h2]
        · simp [h2, ih]

theorem custSum_setBal_some (m : Customers) (k : String) (v w : ℚ)
    (h : lookupBal m k = some w) :
    custSum (setBal m k v) = custSum m - w + v := by
  induction m with
  | nil => simp [lookupBal] at h
  | cons hd tl ih =>
      obtain ⟨k0, v0⟩ := hd
      by_cases h0 : k0 = k
      · rw [lookupBal, if_pos h0] at h
        obtain rfl : v0 = w := by injection h
        simp [setBal, if_pos h0, custSum]
        ring
      · rw [lookupBal, if_neg h0] at h
        simp only [setBal, if_neg h0, custSum, ih h]
        ring

theorem custSum_setBal_none (m : Customers) (k : String) (v : ℚ)
    (h : lookupBal m k = none) :
    custSum (setBal m k v) = custSum m + v := by
  induction m with
  | nil => simp [setBal, custSum]
  | cons hd tl ih =>
      obtain ⟨k0, v0⟩ := hd
      by_cases h0 : k0 = k
      · rw [lookupBal, if_pos h0] at h
        exact absurd h (by simp)
      · rw [lookupBal, if_neg h0] at h
        simp only [setBal, if_neg h0, custSum, ih h]
        ring

theorem custSum_addBal (m : Customers) (k : String) (d w : ℚ)
    (h : lookupBal m k = some w) :
    custSum (addBal m k d) = custSum m + d := by
  rw [addBal, h, custSum_setBal_some m k (w + d) w h]
  ring

theorem lookupBal_addBal_self (m : Customers) (k : String) (d w : ℚ)
    (h : lookupBal m k = some w) :
    lookupBal (addBal m k d) k = some (w + d) := by
  rw [addBal, h, lookupBal_setBal_self]

/-! ### Inversion lemmas for the validation phases -/

theorem npValidate_eq_none (req : TransferReq) (st : LedgerState)
    (h : npValidate req st = none) :
    ¬ req.payerName = req.receiverName ∧ 0 < req.amount ∧ ¬ req.cashType = "" ∧
    (req.payerType = PartyType.customer → lookupBal st.customers req.payerName = none) ∧
    (req.receiverType = PartyType.customer → lookupBal st.customers req.receiverName = none) ∧
    (req.payerType = PartyType.owner → 0 ≤ st.ownerBalance) := by
  unfold npValidate at h
  split_ifs at h with h1 h2 h3 h4 h5 h6 h7
  push_neg at h4 h5 h6
  exact ⟨h1, lt_of_not_le h2, h3, fun hp => h4 hp, fun hr => h5 hr,
    fun hp => h6 hp⟩

theorem opValidateCommon_eq_none (req : TransferReq) (st : LedgerState)
    (h : opValidateCommon req st = none) :
    ¬ req.payerName = req.receiverName ∧ 0 < req.amount ∧ ¬ req.cashType = "" ∧
    (req.payerType = PartyType.customer → ¬ lookupBal st.customers req.payerName = none) ∧
    (req.receiverType = PartyType.customer → ¬ lookupBal st.customers req.receiverName = none) := by
  unfold opValidateCommon at h
  split_ifs at h with h1 h2 h3 h4 h5
  push_neg at h4 h5
  exact ⟨h1, lt_of_not_le h2, h3, fun hp => h4 hp, fun hr => h5 hr⟩

theorem opValidate_eq_none (ty : OPType) (req : TransferReq) (st : LedgerState)
    (h : opValidate ty req st = none) :
    opValidateCommon req st = none ∧
    opValidateType ty (st.balOf req.payerType req.payerName) req.amount = none := by
  unfold opValidate at h
  cases hc : opValidateCommon req st with
  | some e => rw [hc] at h; exact absurd h (by simp)
  | none => rw [hc] at h; exact ⟨rfl, h⟩

theorem opValidateType_PR_eq_none (payerBal amount : ℚ)
    (h : opValidateType OPType.PR payerBal amount = none) :
    payerBal < 0 ∧ amount < |payerBal| := by
  simp only [opValidateType] at h
  split_ifs at h with h1 h2
  exact ⟨lt_of_not_le h1, lt_of_not_le h2⟩

theorem opValidateType_Full_eq_none (payerBal amount : ℚ)
    (h : opValidateType OPType.Full payerBal amount = none) :
    payerBal < 0 ∧ amount = |payerBal| := by
  simp only [opValidateType] at h
  split_ifs at h with h1 h2
  push_neg at h2
  exact ⟨lt_of_not_le h1, h2⟩

theorem opValidateType_Debt_eq_none (payerBal amount : ℚ)
    (h : opValidateType OPType.Debt payerBal amount = none) :
    0 ≤ payerBal := by
  simp only [opValidateType] at h
  split_ifs at h with h1
  exact not_lt.mp h1

theorem handleOP_ok_inv (ty : OPType) (req : TransferReq) (date : String)
    (st st2 : LedgerState)
    (h : handleOldPersonTransaction ty req date st = OpResult.ok st2) :
    opValidate ty req st = none ∧ opApply ty req date st = OpResult.ok st2 := by
  unfold handleOldPersonTransaction at h
  cases hv : opValidate ty req st with
  | some e => rw [hv] at h; exact absurd h (by simp)
  | none => rw [hv] at h; exact ⟨rfl, h⟩

theorem addNP_ok_inv (req : TransferReq) (newId date : String)
    (st st2 : LedgerState)
    (h : addNewPersonTransaction req newId date st = OpResult.ok st2) :
    npValidate req st = none ∧ npApply req newId date st = st2 := by
  unfold addNewPersonTransaction at h
  cases hv : npValidate req st with
  | some e => rw [hv] at h; exact absurd h (by simp)
  | none =>
      rw [hv] at h
      refine ⟨rfl, ?_⟩
      injection h

theorem handleGE_ok_inv (ty : GEType) (req : GEReq) (currentOwner date : String)
    (st st2 : LedgerState)
    (h : handleGeneralEntry ty req currentOwner date st = OpResult.ok st2) :
    geValidate ty req st = none ∧ geApply ty req currentOwner date st = st2 := by
  unfold handleGeneralEntry at h
  cases hv : geValidate ty req st with
  | some e => rw [hv] at h; exact absurd h (by simp)
  | none =>
      rw [hv] at h
      refine ⟨rfl, ?_⟩
      injection h

theorem geValidate_adj_eq_none (req : GEReq) (st : LedgerState)
    (h : geValidate GEType.Adjustment req st = none) :
    0 < req.amount ∧ ¬ req.description = "" ∧
    ∃ pt name dir, req.adjPerson = some (pt, name) ∧ req.adjDirection = some dir ∧
      ¬ name = "" ∧
      (pt = PartyType.customer → ¬ lookupBal st.customers name = none) := by
  obtain ⟨a, d, p, dd⟩ := req
  simp only [geValidate] at h
  split_ifs at h with h1 h2
  rcases p with _ | ⟨pt, name⟩
  · simp [geValidateAdj] at h
  · simp only [geValidateAdj] at h
    split_ifs at h with h3 h4
    rcases dd with _ | dir
    · simp at h
    · push_neg at h4
      exact ⟨lt_of_not_le h1, h2, pt, name, dir, rfl, rfl, h3, fun hc => h4 hc⟩

/-! ### Claim theorems -/

/-- C9: deleting a transaction from the log never changes the owner
balance or any customer balance — `deleteMoneyExchangerTransaction` only
splices the transaction list and never reverses or replays the balance
effect the deleted transaction originally produced. -/
theorem delete_preserves_balances :
    ∀ (st : LedgerState) (index : Nat),
      (deleteMoneyExchangerTransaction st index).ownerBalance = st.ownerBalance ∧
      (deleteMoneyExchangerTransaction st index).customers = st.customers := by
  intro st index
  rcases h1 : st.transactions[index]? with _ | tx
  · simp [deleteMoneyExchangerTransaction, h1]
  · rcases h2 : st.transactions.findIdx? (fun t => t.id == tx.id) with _ | j
    · simp [deleteMoneyExchangerTransaction, h1, h2]
    · simp [deleteMoneyExchangerTransaction, h1, h2]

/-- C1: evaluation at the spec's own scenario (Bob at -50, Old-Person
PartialRepayment of 20 to the owner).  The request is accepted, but the
code sets Bob's balance to currentBalance - amount = -70: the debt GROWS
by the amount instead of shrinking (the spec and the code's own comment
say it should become -30 = -50 + 20).  The owner side (+20) matches the
spec. -/
theorem partialRepayment_growsDebt_eval :
    handleOldPersonTransaction OPType.PR reqPRBob "now" stBob =
      OpResult.ok ⟨20, [("Bob", -70)],
        [⟨none, "Old Person (PR)", "now", "Bob", "Ali", 20, "repay", "USD"⟩]⟩ ∧
    ((-70 : ℚ) ≠ -50 + 20) := by
  constructor
  · norm_num [handleOldPersonTransaction, opValidate, opValidateCommon,
      opValidateType, opApply, stBob, reqPRBob,
      lookupBal, setBal, addBal, LedgerState.balOf, opTypeName]
    all_goals simp
  · norm_num

/-- C2: evaluation with the OWNER as repaying party (ownerBalance = -50,
FullRepayment of exactly 50 to customer Bob).  Validation accepts the
amount as the exact debt, but the effect branch for an owner payer ignores
the subtype and runs ownerBalance -= amount: the owner ends at -100
instead of the exact zero the spec requires (Bob's +50 matches). -/
theorem fullRepayment_ownerPayer_eval :
    handleOldPersonTransaction OPType.Full reqFullOwner "now" stOwnerDebt50 =
      OpResult.ok ⟨-100, [("Bob", 50)],
        [⟨none, "Old Person (Full)", "now", "Ali", "Bob", 50, "repay", "USD"⟩]⟩ ∧
    ((-100 : ℚ) ≠ 0) := by
  constructor
  · norm_num [handleOldPersonTransaction, opValidate, opValidateCommon,
      opValidateType, opApply, stOwnerDebt50, reqFullOwner,
      lookupBal, setBal, addBal, LedgerState.balOf, opTypeName]
    all_goals simp
  · norm_num

/-- C4: evaluation at a request rejected AFTER the push: Bob holds +10
(the owner owes him), and a DebtIssuance with Bob as payer is rejected
with InvertedDebtDirection — but `handleOldPersonTransaction` pushed the
transaction before that check, so the rejected request leaves the
transaction in the log (balances stay unchanged). -/
theorem invertedDebt_leaves_partial_log_eval :
    handleOldPersonTransaction OPType.Debt reqDebtBob "now" stBobCredit =
      OpResult.err Rejection.InvertedDebtDirection ⟨0, [("Bob", 10)],
        [⟨none, "Old Person (Debt)", "now", "Bob", "Ali", 5, "debt", "USD"⟩]⟩ ∧
    ([(⟨none, "Old Person (Debt)", "now", "Bob", "Ali", 5, "debt", "USD"⟩ : Tx)] ≠
      stBobCredit.transactions) := by
  constructor
  · norm_num [handleOldPersonTransaction, opValidate, opValidateCommon,
      opValidateType, opApply, stBobCredit, reqDebtBob,
      lookupBal, setBal, addBal, LedgerState.balOf, opTypeName]
    all_goals simp
  · simp [stBobCredit]

/-- C7: every accepted New-Person transfer (which per the spec involves at
least one customer-typed party) has a positive amount, decreases the
payer's balance by the amount and increases the receiver's balance by the
amount; a brand-new customer's prior balance reads as 0, so a new receiver
is initialized to +amount and a new payer to -amount. -/
theorem newPerson_transfer_balances (req : TransferReq) (newId date : String)
    (st st2 : LedgerState)
    (hc : req.payerType = PartyType.customer ∨ req.receiverType = PartyType.customer)
    (h : addNewPersonTransaction req newId date st = OpResult.ok st2) :
    0 < req.amount ∧
    st2.balOf req.payerType req.payerName =
      st.balOf req.payerType req.payerName - req.amount ∧
    st2.balOf req.receiverType req.receiverName =
      st.balOf req.receiverType req.receiverName + req.amount := by
  obtain ⟨hv, happ⟩ := addNP_ok_inv req newId date st st2 h
  obtain ⟨hne, ha, hcash, hp, hr, how⟩ := npValidate_eq_none req st hv
  subst happ
  refine ⟨ha, ?_⟩
  obtain ⟨pt, pn, rt, rn, a, d, ct⟩ := req
  cases pt <;> cases rt
  · simp at hc
  · have hrn := hr rfl
    constructor
    · simp [npApply, LedgerState.balOf]
    · simp only [npApply, LedgerState.balOf]
      rw [lookupBal_setBal_self]
      simp only at hrn
      rw [hrn]
      simp
  · have hpn := hp rfl
    constructor
    · simp only [npApply, LedgerState.balOf]
      rw [lookupBal_setBal_self]
      simp only at hpn
      rw [hpn]
      simp
    · simp [npApply, LedgerState.balOf]
  · have hpn := hp rfl
    have hrn := hr rfl
    simp only at hpn hrn hne
    constructor
    · simp only [npApply, LedgerState.balOf]
      rw [lookupBal_setBal_ne _ rn pn a (Ne.symm hne), lookupBal_setBal_self, hpn]
      simp
    · simp only [npApply, LedgerState.balOf]
      rw [lookupBal_setBal_self, hrn]
      simp

/-- C7 witness: the spec scenario — empty ledger, New-Person transfer of
100 from the owner to the brand-new customer Alice is accepted and, by the
theorem, moves the balances by ±100; evaluating, ownerBalance = -100 and
customers Alice = 100. -/
theorem newPerson_transfer_balances_witness :
    (0 < reqNPAlice.amount ∧
     (npApply reqNPAlice "tx1" "now" stEmpty).balOf reqNPAlice.payerType reqNPAlice.payerName =
       stEmpty.balOf reqNPAlice.payerType reqNPAlice.payerName - reqNPAlice.amount ∧
     (npApply reqNPAlice "tx1" "now" stEmpty).balOf reqNPAlice.receiverType reqNPAlice.receiverName =
       stEmpty.balOf reqNPAlice.receiverType reqNPAlice.receiverName + reqNPAlice.amount) ∧
    (npApply reqNPAlice "tx1" "now" stEmpty).ownerBalance = -100 ∧
    lookupBal (npApply reqNPAlice "tx1" "now" stEmpty).customers "Alice" = some 100 := by
  refine ⟨?_, ?_, ?_⟩
  · refine newPerson_transfer_balances reqNPAlice "tx1" "now" stEmpty
      (npApply reqNPAlice "tx1" "now" stEmpty) (Or.inr rfl) ?_
    unfold addNewPersonTransaction
    have hv : npValidate reqNPAlice stEmpty = none := by
      norm_num [npValidate, reqNPAlice, stEmpty, lookupBal, negOpt]
      all_goals simp
    rw [hv]
  · norm_num [npApply, reqNPAlice, stEmpty, setBal]
  · norm_num [npApply, reqNPAlice, stEmpty, setBal, lookupBal]

/-- C8: a General-Entry Adjustment with the owner as target changes only
the owner balance by plus or minus the amount; with an existing customer
as target it changes that customer's balance by plus or minus the amount
and the owner balance by the same amount with the opposite sign; a named
customer that does not exist is rejected with UnknownCustomer, and a
missing direction is rejected with MissingDirection. -/
theorem adjustment_spec (a : ℚ) (d name currentOwner date : String)
    (st : LedgerState)
    (ha : 0 < a) (hd : ¬ d = "") (hn : ¬ name = "") :
    ((handleGeneralEntry GEType.Adjustment ⟨a, d, some (PartyType.owner, name), some AdjDir.plus⟩
        currentOwner date st).isOk = true ∧
     (handleGeneralEntry GEType.Adjustment ⟨a, d, some (PartyType.owner, name), some AdjDir.plus⟩
        currentOwner date st).state.ownerBalance = st.ownerBalance + a ∧
     (handleGeneralEntry GEType.Adjustment ⟨a, d, some (PartyType.owner, name), some AdjDir.plus⟩
        currentOwner date st).state.customers = st.customers) ∧
    ((handleGeneralEntry GEType.Adjustment ⟨a, d, some (PartyType.owner, name), some AdjDir.minus⟩
        currentOwner date st).isOk = true ∧
     (handleGeneralEntry GEType.Adjustment ⟨a, d, some (PartyType.owner, name), some AdjDir.minus⟩
        currentOwner date st).state.ownerBalance = st.ownerBalance - a ∧
     (handleGeneralEntry GEType.Adjustment ⟨a, d, some (PartyType.owner, name), some AdjDir.minus⟩
        currentOwner date st).state.customers = st.customers) ∧
    (∀ c, lookupBal st.customers name = some c →
      (handleGeneralEntry GEType.Adjustment ⟨a, d, some (PartyType.customer, name), some AdjDir.plus⟩
          currentOwner date st).isOk = true ∧
      lookupBal (handleGeneralEntry GEType.Adjustment ⟨a, d, some (PartyType.customer, name), some AdjDir.plus⟩
          currentOwner date st).state.customers name = some (c + a) ∧
      (handleGeneralEntry GEType.Adjustment ⟨a, d, some (PartyType.customer, name), some AdjDir.plus⟩
          currentOwner date st).state.ownerBalance = st.ownerBalance - a) ∧
    (∀ c, lookupBal st.customers name = some c →
      (handleGeneralEntry GEType.Adjustment ⟨a, d, some (PartyType.customer, name), some AdjDir.minus⟩
          currentOwner date st).isOk = true ∧
      lookupBal (handleGeneralEntry GEType.Adjustment ⟨a, d, some (PartyType.customer, name), some AdjDir.minus⟩
          currentOwner date st).state.customers name = some (c - a) ∧
      (handleGeneralEntry GEType.Adjustment ⟨a, d, some (PartyType.customer, name), some AdjDir.minus⟩
          currentOwner date st).state.ownerBalance = st.ownerBalance + a) ∧
    (lookupBal st.customers name = none →
      ∀ dd : Option AdjDir,
        handleGeneralEntry GEType.Adjustment ⟨a, d, some (PartyType.customer, name), dd⟩
          currentOwner date st = OpResult.err Rejection.UnknownCustomer st) ∧
    (handleGeneralEntry GEType.Adjustment ⟨a, d, some (PartyType.owner, name), none⟩
        currentOwner date st = OpResult.err Rejection.MissingDirection st) ∧
    (∀ c, lookupBal st.customers name = some c →
      handleGeneralEntry GEType.Adjustment ⟨a, d, some (PartyType.customer, name), none⟩
        currentOwner date st = OpResult.err Rejection.MissingDirection st) := by
  have hna : ¬ a ≤ 0 := not_le.mpr ha
  refine ⟨?_, ?_, ?_, ?_, ?_, ?_, ?_⟩
  · have hval : geValidate GEType.Adjustment ⟨a, d, some (PartyType.owner, name), some AdjDir.plus⟩ st = none := by
      simp [geValidate, geValidateAdj, hna, hd, hn]
    simp [handleGeneralEntry, hval, geApply, OpResult.isOk, OpResult.state]
  · have hval : geValidate GEType.Adjustment ⟨a, d, some (PartyType.owner, name), some AdjDir.minus⟩ st = none := by
      simp [geValidate, geValidateAdj, hna, hd, hn]
    simp [handleGeneralEntry, hval, geApply, OpResult.isOk, OpResult.state]
  · intro c hc
    have hval : geValidate GEType.Adjustment ⟨a, d, some (PartyType.customer, name), some AdjDir.plus⟩ st = none := by
      simp [geValidate, geValidateAdj, hna, hd, hn, hc]
    have hlook := lookupBal_addBal_self st.customers name a c hc
    simp [handleGeneralEntry, hval, geApply, OpResult.isOk, OpResult.state, hlook]
  · intro c hc
    have hval : geValidate GEType.Adjustment ⟨a, d, some (PartyType.customer, name), some AdjDir.minus⟩ st = none := by
      simp [geValidate, geValidateAdj, hna, hd, hn, hc]
    have hlook := lookupBal_addBal_self st.customers name (-a) c hc
    simp [handleGeneralEntry, hval, geApply, OpResult.isOk, OpResult.state, hlook]
    ring_nf
    try rfl
  · intro hnone dd
    have hval : geValidate GEType.Adjustment ⟨a, d, some (PartyType.customer, name), dd⟩ st =
        some Rejection.UnknownCustomer := by
      simp [geValidate, geValidateAdj, hna, hd, hn, hnone]
    simp [handleGeneralEntry, hval]
  · have hval : geValidate GEType.Adjustment ⟨a, d, some (PartyType.owner, name), none⟩ st =
        some Rejection.MissingDirection := by
      simp [geValidate, geValidateAdj, hna, hd, hn]
    simp [handleGeneralEntry, hval]
  · intro c hc
    have hval : geValidate GEType.Adjustment ⟨a, d, some (PartyType.customer, name), none⟩ st =
        some Rejection.MissingDirection := by
      simp [geValidate, geValidateAdj, hna, hd, hn, hc]
    simp [handleGeneralEntry, hval]

/-- C8 witness: the spec scenario — Carol exists with balance 0, owner at
100; an Adjustment on Carol with direction + and amount 30 is accepted,
Carol ends at 30 and the owner balance drops by 30 (to 70). -/
theorem adjustment_spec_witness :
    (handleGeneralEntry GEType.Adjustment geReqCarol "Ali" "now" stCarol).isOk = true ∧
    lookupBal (handleGeneralEntry GEType.Adjustment geReqCarol "Ali" "now" stCarol).state.customers
      "Carol" = some (0 + 30) ∧
    (handleGeneralEntry GEType.Adjustment geReqCarol "Ali" "now" stCarol).state.ownerBalance =
      stCarol.ownerBalance - 30 := by
  have h := (adjustment_spec 30 "adj" "Carol" "Ali" "now" stCarol
    (by norm_num) (by simp) (by simp)).2.2.1 0 (by simp [stCarol, lookupBal])
  exact h

/-- C6 counterexample: customer Bob holds -50, yet a New-Person transfer
naming Bob as payer is rejected with CustomerAlreadyExists, not with the
OutstandingDebt error the claim requires — the existing-customer check
runs before the debt guard, so an indebted existing customer never
reaches the OutstandingDebt rejection on the New-Person path. -/
theorem newPerson_indebted_payer_wrong_error :
    lookupBal stBob.customers "Bob" = some (-50) ∧
    addNewPersonTransaction reqNPBob "tx1" "now" stBob =
      OpResult.err Rejection.CustomerAlreadyExists stBob ∧
    Rejection.CustomerAlreadyExists ≠ Rejection.OutstandingDebt := by
  refine ⟨by simp [stBob, lookupBal], ?_, by simp⟩
  have hv : npValidate reqNPBob stBob = some Rejection.CustomerAlreadyExists := by
    norm_num [npValidate, reqNPBob, stBob, lookupBal, negOpt]
    all_goals simp
  simp [addNewPersonTransaction, hv]

/-- C6 (amended): a party with balance < 0 is rejected as payer: an
otherwise-valid Old-Person DebtIssuance is rejected with OutstandingDebt
(both for the owner and for a customer payer); an otherwise-valid
New-Person transfer with the indebted OWNER as payer is rejected with
OutstandingDebt; but a New-Person transfer naming an EXISTING customer as
payer (indebted or not) is rejected earlier with CustomerAlreadyExists —
the indebted party is still always rejected, only the error kind differs
in that cell. -/
theorem outstandingDebt_guard_amended :
    (∀ (req : TransferReq) (date : String) (st : LedgerState),
      ¬ req.payerName = req.receiverName → 0 < req.amount → ¬ req.cashType = "" →
      (req.payerType = PartyType.customer → ¬ lookupBal st.customers req.payerName = none) →
      (req.receiverType = PartyType.customer → ¬ lookupBal st.customers req.receiverName = none) →
      st.balOf req.payerType req.payerName < 0 →
      handleOldPersonTransaction OPType.Debt req date st =
        OpResult.err Rejection.OutstandingDebt st) ∧
    (∀ (req : TransferReq) (newId date : String) (st : LedgerState),
      req.payerType = PartyType.owner →
      ¬ req.payerName = req.receiverName → 0 < req.amount → ¬ req.cashType = "" →
      (req.receiverType = PartyType.customer → lookupBal st.customers req.receiverName = none) →
      st.ownerBalance < 0 →
      addNewPersonTransaction req newId date st =
        OpResult.err Rejection.OutstandingDebt st) ∧
    (∀ (req : TransferReq) (newId date : String) (st : LedgerState) (v : ℚ),
      req.payerType = PartyType.customer →
      ¬ req.payerName = req.receiverName → 0 < req.amount → ¬ req.cashType = "" →
      lookupBal st.customers req.payerName = some v →
      addNewPersonTransaction req newId date st =
        OpResult.err Rejection.CustomerAlreadyExists st) := by
  refine ⟨?_, ?_, ?_⟩
  · intro req date st h1 h2 h3 hp hr hdebt
    have hcommon : opValidateCommon req st = none := by
      unfold opValidateCommon
      rw [if_neg h1, if_neg (not_le.mpr h2), if_neg h3]
      rw [if_neg (fun hand => (hp hand.1) hand.2),
        if_neg (fun hand => (hr hand.1) hand.2)]
    have hval : opValidate OPType.Debt req st = some Rejection.OutstandingDebt := by
      unfold opValidate
      rw [hcommon]
      simp [opValidateType, hdebt]
    simp [handleOldPersonTransaction, hval]
  · intro req newId date st hpt h1 h2 h3 hrn hdebt
    have hv : npValidate req st = some Rejection.OutstandingDebt := by
      unfold npValidate
      rw [if_neg h1, if_neg (not_le.mpr h2), if_neg h3]
      rw [if_neg (fun hand => by rw [hpt] at hand; exact absurd hand.1 (by simp))]
      rw [if_neg (fun hand => hand.2 (hrn hand.1))]
      rw [if_pos ⟨hpt, hdebt⟩]
    simp [addNewPersonTransaction, hv]
  · intro req newId date st v hpt h1 h2 h3 hlook
    have hv : npValidate req st = some Rejection.CustomerAlreadyExists := by
      unfold npValidate
      rw [if_neg h1, if_neg (not_le.mpr h2), if_neg h3]
      rw [if_pos ⟨hpt, by rw [hlook]; exact fun hh => Option.noConfusion hh⟩]
    simp [addNewPersonTransaction, hv]

/-- C6 witness: the spec scenario — ownerBalance = -10, DebtIssuance with
the owner as payer is rejected with OutstandingDebt and leaves the state
unchanged. -/
theorem outstandingDebt_guard_amended_witness :
    handleOldPersonTransaction OPType.Debt reqDebtOwner5 "now" stOwnerDebt10 =
      OpResult.err Rejection.OutstandingDebt stOwnerDebt10 :=
  outstandingDebt_guard_amended.1 reqDebtOwner5 "now" stOwnerDebt10
    (by simp [reqDebtOwner5]) (by norm_num [reqDebtOwner5]) (by simp [reqDebtOwner5])
    (fun hcust => absurd hcust (by simp [reqDebtOwner5]))
    (fun _ => by simp [reqDebtOwner5, stOwnerDebt10, lookupBal])
    (by norm_num [reqDebtOwner5, stOwnerDebt10, LedgerState.balOf])

/-- C3 counterexample: customer Bob at -50 fully repays the owner (50).
The operation is accepted, yet ownerBalance + sum of customer balances
jumps from -50 to 50: an accepted Old-Person FullRepayment does NOT
preserve the total, contradicting the claim. -/
theorem fullRepayment_breaks_conservation :
    handleOldPersonTransaction OPType.Full reqFullBob "now" stBob =
      OpResult.ok ⟨50, [("Bob", 0)],
        [⟨none, "Old Person (Full)", "now", "Bob", "Ali", 50, "repay", "USD"⟩]⟩ ∧
    ledgerTotal ⟨50, [("Bob", 0)],
        [⟨none, "Old Person (Full)", "now", "Bob", "Ali", 50, "repay", "USD"⟩]⟩ ≠
      ledgerTotal stBob := by
  constructor
  · norm_num [handleOldPersonTransaction, opValidate, opValidateCommon,
      opValidateType, opApply, stBob, reqFullBob,
      lookupBal, setBal, addBal, LedgerState.balOf, opTypeName]
    all_goals simp
  · norm_num [ledgerTotal, custSum, stBob]

/-- C3 (amended): ownerBalance + sum of customer balances is preserved by
every accepted New-Person transfer except the owner-to-owner corner case,
by accepted Old-Person transactions with owner payer and customer
receiver, by accepted PartialRepayment and DebtIssuance with customer
payer and owner receiver, and by every accepted customer-targeted
Adjustment; an accepted FullRepayment with customer payer and owner
receiver instead increases the total by 2·amount. -/
theorem conservation_amended :
    (∀ (req : TransferReq) (newId date : String) (st st2 : LedgerState),
      ¬ (req.payerType = PartyType.owner ∧ req.receiverType = PartyType.owner) →
      addNewPersonTransaction req newId date st = OpResult.ok st2 →
      ledgerTotal st2 = ledgerTotal st) ∧
    (∀ (ty : OPType) (req : TransferReq) (date : String) (st st2 : LedgerState),
      req.payerType = PartyType.owner → req.receiverType = PartyType.customer →
      handleOldPersonTransaction ty req date st = OpResult.ok st2 →
      ledgerTotal st2 = ledgerTotal st) ∧
    (∀ (ty : OPType) (req : TransferReq) (date : String) (st st2 : LedgerState),
      ¬ ty = OPType.Full →
      req.payerType = PartyType.customer → req.receiverType = PartyType.owner →
      handleOldPersonTransaction ty req date st = OpResult.ok st2 →
      ledgerTotal st2 = ledgerTotal st) ∧
    (∀ (req : TransferReq) (date : String) (st st2 : LedgerState),
      req.payerType = PartyType.customer → req.receiverType = PartyType.owner →
      handleOldPersonTransaction OPType.Full req date st = OpResult.ok st2 →
      ledgerTotal st2 = ledgerTotal st + 2 * req.amount) ∧
    (∀ (req : GEReq) (currentOwner date name : String) (st st2 : LedgerState),
      req.adjPerson = some (PartyType.customer, name) →
      handleGeneralEntry GEType.Adjustment req currentOwner date st = OpResult.ok st2 →
      ledgerTotal st2 = ledgerTotal st) := by
  refine ⟨?_, ?_, ?_, ?_, ?_⟩
  · -- New-Person transfers conserve (except owner→owner)
    intro req newId date st st2 hno h
    obtain ⟨hv, happ⟩ := addNP_ok_inv req newId date st st2 h
    obtain ⟨hne, ha, hcash, hp, hr, how⟩ := npValidate_eq_none req st hv
    subst happ
    obtain ⟨pt, pn, rt, rn, a, d, ct⟩ := req
    cases pt <;> cases rt
    · exact absurd ⟨rfl, rfl⟩ hno
    · have hrn := hr rfl
      simp only at hrn
      simp only [npApply, ledgerTotal]
      rw [custSum_setBal_none _ _ _ hrn]
      ring
    · have hpn := hp rfl
      simp only at hpn
      simp only [npApply, ledgerTotal]
      rw [custSum_setBal_none _ _ _ hpn]
      ring
    · have hpn := hp rfl
      have hrn := hr rfl
      simp only at hne hpn hrn
      have houter : lookupBal (setBal st.customers pn (-a)) rn = none := by
        rw [lookupBal_setBal_ne _ pn rn _ hne]
        exact hrn
      simp only [npApply, ledgerTotal]
      rw [custSum_setBal_none _ _ _ houter, custSum_setBal_none _ _ _ hpn]
      ring
  · -- Old-Person, owner pays a customer: conserves for all three subtypes
    intro ty req date st st2 hpt hrt h
    obtain ⟨hv, happ⟩ := handleOP_ok_inv ty req date st st2 h
    obtain ⟨hcom, _⟩ := opValidate_eq_none ty req st hv
    obtain ⟨hne, ha, hcash, hp, hr⟩ := opValidateCommon_eq_none req st hcom
    obtain ⟨pt, pn, rt, rn, a, d, ct⟩ := req
    simp only at hpt hrt
    subst hpt
    subst hrt
    rcases hx : lookupBal st.customers rn with _ | w
    · exact absurd hx (hr rfl)
    · simp only [opApply] at happ
      rw [if_pos trivial] at happ
      obtain rfl : _ = st2 := by injection happ
      simp only [ledgerTotal]
      rw [custSum_addBal _ _ _ w hx]
      ring
  · -- Old-Person PR / Debt, customer pays the owner: conserves
    intro ty req date st st2 hfull hpt hrt h
    obtain ⟨hv, happ⟩ := handleOP_ok_inv ty req date st st2 h
    obtain ⟨hcom, _⟩ := opValidate_eq_none ty req st hv
    obtain ⟨hne, ha, hcash, hp, hr⟩ := opValidateCommon_eq_none req st hcom
    obtain ⟨pt, pn, rt, rn, a, d, ct⟩ := req
    simp only at hpt hrt
    subst hpt
    subst hrt
    rcases hx : lookupBal st.customers pn with _ | w
    · exact absurd hx (hp rfl)
    · cases ty with
      | PR =>
          simp only [opApply] at happ
          rw [hx] at happ
          rw [if_pos trivial] at happ
          obtain rfl : _ = st2 := by injection happ
          simp only [ledgerTotal, Option.getD_some]
          rw [custSum_setBal_some _ _ _ w hx]
          ring
      | Full => exact absurd rfl hfull
      | Debt =>
          simp only [opApply] at happ
          rw [hx] at happ
          simp only [Option.getD_some] at happ
          by_cases h0 : 0 < w
          · rw [if_pos h0] at happ
            exact absurd happ (by simp)
          · rw [if_neg h0, if_pos trivial] at happ
            obtain rfl : _ = st2 := by injection happ
            simp only [ledgerTotal]
            rw [custSum_setBal_some _ _ _ w hx]
            ring
  · -- Old-Person Full, customer pays the owner: total grows by 2·amount
    intro req date st st2 hpt hrt h
    obtain ⟨hv, happ⟩ := handleOP_ok_inv OPType.Full req date st st2 h
    obtain ⟨hcom, hty⟩ := opValidate_eq_none OPType.Full req st hv
    obtain ⟨hne, ha, hcash, hp, hr⟩ := opValidateCommon_eq_none req st hcom
    obtain ⟨hneg, hamt⟩ := opValidateType_Full_eq_none _ _ hty
    obtain ⟨pt, pn, rt, rn, a, d, ct⟩ := req
    simp only at hpt hrt
    subst hpt
    subst hrt
    rcases hx : lookupBal st.customers pn with _ | w
    · exact absurd hx (hp rfl)
    · simp only [LedgerState.balOf, hx, Option.getD_some] at hneg hamt
      simp only [opApply] at happ
      rw [if_pos trivial] at happ
      obtain rfl : _ = st2 := by injection happ
      simp only [ledgerTotal]
      rw [custSum_setBal_some _ _ _ w hx]
      rw [abs_of_neg hneg] at hamt
      rw [hamt]
      ring
  · -- customer-targeted Adjustment: conserves
    intro req currentOwner date name st st2 hperson h
    obtain ⟨hv, happ⟩ := handleGE_ok_inv GEType.Adjustment req currentOwner date st st2 h
    obtain ⟨ha, hd, pt, name2, dir, hperson2, hdir, hn, hcust⟩ :=
      geValidate_adj_eq_none req st hv
    rw [hperson] at hperson2
    obtain ⟨rfl, rfl⟩ : PartyType.customer = pt ∧ name = name2 := by
      have := hperson2.symm
      injection this with h1
      injection h1 with h2 h3
      exact ⟨h2.symm, h3.symm⟩
    rcases hx : lookupBal st.customers name with _ | w
    · exact absurd hx (hcust rfl)
    · simp only [geApply, hperson, hdir] at happ
      cases dir with
      | plus =>
          subst happ
          simp only [ledgerTotal]
          rw [custSum_addBal _ _ _ w hx]
          ring
      | minus =>
          subst happ
          simp only [ledgerTotal]
          rw [custSum_addBal _ _ _ w hx]
          ring

/-- C3 witness: Carol (balance 0) is adjusted by +30; the accepted
customer-targeted Adjustment preserves the total: owner drops from 100 to
70 while Carol rises to 30, and ledgerTotal stays 100. -/
theorem conservation_amended_witness :
    ledgerTotal ⟨70, [("Carol", 30)],
      [⟨none, "General Entry (Adjustment)", "now", "Ali", "Carol", 30, "adj", "USD"⟩]⟩ =
      ledgerTotal stCarol := by
  refine conservation_amended.2.2.2.2 geReqCarol "Ali" "now" "Carol" stCarol _ rfl ?_
  have hval : geValidate GEType.Adjustment geReqCarol stCarol = none := by
    norm_num [geValidate, geValidateAdj, geReqCarol, stCarol, lookupBal]
    all_goals simp
  unfold handleGeneralEntry
  rw [hval]
  norm_num [geApply, geReqCarol, stCarol, adjParties, addBal, lookupBal, setBal, geTypeName]

/-- C10: the server endpoint accepts (201) exactly when payer, receiver
and amount are all truthy (present, non-empty, non-zero), assigning the
server id and date and appending the transaction to the shared list; it
rejects with 400 otherwise; and in all cases it performs no business
validation and never touches owners, customers or the owner balance. -/
theorem postTransaction_spec (body : PostTxBody) (newId newDate : String)
    (st : ServerState) :
    ((postMoneyExchangerTransaction body newId newDate st).2.ownerBalance = st.ownerBalance ∧
     (postMoneyExchangerTransaction body newId newDate st).2.customers = st.customers ∧
     (postMoneyExchangerTransaction body newId newDate st).2.owners = st.owners) ∧
    ((truthyStr body.payer && truthyStr body.receiver && truthyNum body.amount) = true →
      postMoneyExchangerTransaction body newId newDate st =
        (201, { st with transactions := st.transactions ++ [mkServerTx body newId newDate] })) ∧
    ((truthyStr body.payer && truthyStr body.receiver && truthyNum body.amount) = false →
      postMoneyExchangerTransaction body newId newDate st = (400, st)) := by
  by_cases h : (truthyStr body.payer && truthyStr body.receiver && truthyNum body.amount) = true
  · simp [postMoneyExchangerTransaction, h]
  · have hf : (truthyStr body.payer && truthyStr body.receiver && truthyNum body.amount) = false :=
      Bool.eq_false_iff.mpr h
    simp [postMoneyExchangerTransaction, hf]

/-- C10 witness: a body whose payer equals its receiver and whose amount
is the negative number -5 — all three fields truthy — is accepted with
201 and appended verbatim; no ledger-engine validation intervenes. -/
theorem postTransaction_spec_witness :
    postMoneyExchangerTransaction bodyNegSelf "tx_1" "today" serverSt0 =
      (201, { serverSt0 with
        transactions := serverSt0.transactions ++ [mkServerTx bodyNegSelf "tx_1" "today"] }) ∧
    bodyNegSelf.payer = bodyNegSelf.receiver ∧
    bodyNegSelf.amount = some (-5) := by
  refine ⟨(postTransaction_spec bodyNegSelf "tx_1" "today" serverSt0).2.1 ?_, rfl, rfl⟩
  simp [bodyNegSelf, truthyStr, truthyNum]

/-- C5: evaluation of an owner-issued DebtIssuance to the indebted
customer Bob (-50).  The claim (and the check written in the source at the
dead `payerType === 'owner'` branch) says this must be rejected with
RecipientInDebt; the code accepts it, because for an owner payer the
generic branch runs first: ownerBalance -= 10, Bob += 10. -/
theorem debtIssuance_recipientInDebt_accepted_eval :
    handleOldPersonTransaction OPType.Debt reqDebtOwner "now" stBob =
      OpResult.ok ⟨-10, [("Bob", -40)],
        [⟨none, "Old Person (Debt)", "now", "Ali", "Bob", 10, "debt", "USD"⟩]⟩ ∧
    (OpResult.ok ⟨-10, [("Bob", -40)],
        [⟨none, "Old Person (Debt)", "now", "Ali", "Bob", 10, "debt", "USD"⟩]⟩).isOk = true := by
  constructor
  · norm_num [handleOldPersonTransaction, opValidate, opValidateCommon,
      opValidateType, opApply, stBob, reqDebtOwner,
      lookupBal, setBal, addBal, LedgerState.balOf, opTypeName]
    all_goals simp
  · rfl

end Cashbook

